import Mathlib

/-!
Shallow embedding of the command authorization layer of mcp-kubernetes:
the security validator (pkg/security/validator.go, pkg/security securityconfig),
and the structured kubectl tool executor (pkg/kubectl/kubectl_executor.go,
pkg/kubectl tool tables). Go strings are Lean `String`s; scanning functions
work on `List Char`. The Go regexp package is abstracted by `RegexEngine`
for the operator-supplied namespace patterns; the two fixed patterns used by
`extractNamespaceFromCommand` are embedded directly with their RE2 semantics.
-/

/-- Characters Go's unicode.IsSpace accepts in the Latin-1 range (used by
strings.Fields and strings.TrimSpace): tab, newline, vertical tab, form feed,
carriage return, space, NEL, NBSP. -/
def goIsSpace (c : Char) : Bool :=
  c == ' ' || c == '\t' || c == '\n' || c == '\x0B' || c == '\x0C' || c == '\r' ||
    c == '\x85' || c == '\xA0'

/-- The character class of the Go regexp escape backslash-s: tab, newline,
form feed, carriage return, space. -/
def goRegexSpace (c : Char) : Bool :=
  c == '\t' || c == '\n' || c == '\x0C' || c == '\r' || c == ' '

/-- Whether the first list occurs at the head of the second (strings.HasPrefix
on character lists). -/
def isPrefixList : List Char → List Char → Bool
  | [], _ => true
  | _ :: _, [] => false
  | p :: ps, c :: cs => p == c && isPrefixList ps cs

/-- strings.Contains: pat occurs as a contiguous substring of the text. -/
def containsSub (pat : List Char) : List Char → Bool
  | [] => pat.isEmpty
  | c :: cs => isPrefixList pat (c :: cs) || containsSub pat cs

/-- strings.Contains on strings. -/
def goContains (s pat : String) : Bool :=
  containsSub pat.data s.data

/-- strings.HasSuffix on strings. -/
def goHasSuffix (s pat : String) : Bool :=
  isPrefixList pat.data.reverse s.data.reverse

/-- strings.HasPrefix on strings. -/
def goStartsWith (s pat : String) : Bool :=
  isPrefixList pat.data s.data

/-- Worker for strings.Fields: acc is the current token, reversed. -/
def fieldsAux : List Char → List Char → List String
  | [], acc => if acc.isEmpty then [] else [String.mk acc.reverse]
  | c :: cs, acc =>
    if goIsSpace c then
      if acc.isEmpty then fieldsAux cs [] else String.mk acc.reverse :: fieldsAux cs []
    else fieldsAux cs (c :: acc)

/-- strings.Fields: the whitespace-separated tokens of a string. -/
def goFields (s : String) : List String :=
  fieldsAux s.data []

/-- strings.TrimSpace on character lists. -/
def goTrimSpace (l : List Char) : List Char :=
  ((l.dropWhile goIsSpace).reverse.dropWhile goIsSpace).reverse

/-- strings.Split(s, ",") on character lists. -/
def splitOnComma : List Char → List (List Char)
  | [] => [[]]
  | c :: rest =>
    if c == ',' then [] :: splitOnComma rest
    else
      match splitOnComma rest with
      | [] => [[c]]
      | t :: ts => (c :: t) :: ts

/-- strings.Join(parts, " "). -/
def goJoin : List String → String
  | [] => ""
  | [a] => a
  | a :: b :: rest => a ++ " " ++ goJoin (b :: rest)

/-- strings.Join(parts, ", "). -/
def goJoinComma : List String → String
  | [] => ""
  | [a] => a
  | a :: b :: rest => a ++ ", " ++ goJoinComma (b :: rest)

/-- KubectlReadOperations from pkg/security/validator.go: kubectl operations
that don't modify state. -/
def KubectlReadOperations : List String :=
  ["get", "describe", "explain", "logs", "top", "auth", "config",
   "cluster-info", "api-resources", "api-versions", "version", "diff",
   "completion", "help", "kustomize", "options", "plugin", "proxy", "wait", "events"]

/-- KubectlReadWriteOperations: kubectl operations that modify state but are
not admin operations. -/
def KubectlReadWriteOperations : List String :=
  ["create", "delete", "apply", "expose", "run", "set", "rollout", "scale",
   "autoscale", "label", "annotate", "patch", "replace", "cp", "exec"]

/-- KubectlAdminOperations: kubectl operations that require admin privileges. -/
def KubectlAdminOperations : List String :=
  ["cordon", "uncordon", "drain", "taint", "certificate"]

/-- HelmReadOperations. -/
def HelmReadOperations : List String :=
  ["get", "history", "list", "show", "status", "search", "repo",
   "env", "version", "verify", "completion", "help"]

/-- CiliumReadOperations. -/
def CiliumReadOperations : List String :=
  ["status", "version", "config", "help", "context", "connectivity",
   "endpoint", "identity", "ip", "map", "metrics", "monitor", "policy",
   "hubble", "bpf", "list", "observe", "service"]

/-- HubbleReadOperations (the source list repeats "status"). -/
def HubbleReadOperations : List String :=
  ["status", "version", "help", "observe", "status", "list", "config"]

/-- getReadOperationsList: the read-operation table of a CLI family. -/
def getReadOperationsList (commandType : String) : List String :=
  if commandType = "kubectl" then KubectlReadOperations
  else if commandType = "helm" then HelmReadOperations
  else if commandType = "cilium" then CiliumReadOperations
  else if commandType = "hubble" then HubbleReadOperations
  else []

/-- getReadWriteOperationsList: only kubectl has a read-write table; helm,
cilium and hubble return empty placeholders. -/
def getReadWriteOperationsList (commandType : String) : List String :=
  if commandType = "kubectl" then KubectlReadWriteOperations
  else if commandType = "helm" then []
  else if commandType = "cilium" then []
  else if commandType = "hubble" then []
  else []

/-- getAdminOperationsList: only kubectl has an admin table. -/
def getAdminOperationsList (commandType : String) : List String :=
  if commandType = "kubectl" then KubectlAdminOperations
  else if commandType = "helm" then []
  else if commandType = "cilium" then []
  else if commandType = "hubble" then []
  else []

/-- isOperationInList: linear membership scan of the validator. -/
def isOperationInList (operation : String) (allowedOperations : List String) : Bool :=
  allowedOperations.any (fun allowed => operation == allowed)

/-- Loop body of extractOperationFromCommand: the first token that does not
start with "-" and differs from the CLI family's binary name. -/
def firstOperation : List String → String → String
  | [], _ => ""
  | part :: rest, commandType =>
    if !goStartsWith part "-" then
      if part != commandType then part else firstOperation rest commandType
    else firstOperation rest commandType

/-- extractOperationFromCommand from pkg/security/validator.go. -/
def extractOperationFromCommand (command commandType : String) : String :=
  firstOperation (goFields command) commandType

/-- After the alternation of the namespace pattern has matched, the tail must
start with a whitespace-class character or '=', then the capture is the
maximal nonempty run of non-whitespace characters. -/
def captureAfterFlag : List Char → Option (List Char)
  | [] => none
  | c :: rest =>
    if goRegexSpace c || c == '=' then
      let cap := rest.takeWhile (fun d => !goRegexSpace d)
      if cap.isEmpty then none else some cap
    else none

/-- One attempt of the RE2 pattern (?:-n|--namespace)[\s=]([^\s]+) anchored at
the head of l; the two alternatives are mutually exclusive on their second
character, so alternation order is immaterial. -/
def nsMatchAt (l : List Char) : Option (List Char) :=
  if isPrefixList ['-', 'n'] l then captureAfterFlag (l.drop 2)
  else if isPrefixList "--namespace".data l then captureAfterFlag (l.drop 11)
  else none

/-- Leftmost match of the namespace-flag pattern: regexp.FindStringSubmatch's
capture group, or none when the pattern does not match. -/
def findNsMatch : List Char → Option (List Char)
  | [] => none
  | c :: rest =>
    match nsMatchAt (c :: rest) with
    | some cap => some cap
    | none => findNsMatch rest

/-- regexp.MatchString of (\S+)/(\S+): some window of three consecutive
characters is nonspace, '/', nonspace. -/
def hasSlashShorthand : List Char → Bool
  | a :: b :: c :: rest =>
    (!goRegexSpace a && b == '/' && !goRegexSpace c) || hasSlashShorthand (b :: c :: rest)
  | _ => false

/-- extractNamespaceFromCommand from pkg/security/validator.go: the explicit
capture of the -n or --namespace flag, else "default" for a resource/name shorthand, else
the "*" wildcard for an all-namespaces marker, else empty. -/
def extractNamespaceFromCommand (command : String) : String :=
  match findNsMatch command.data with
  | some cap => String.mk cap
  | none =>
    if hasSlashShorthand command.data then "default"
    else if goContains command "--all-namespaces" || goContains command " -A" ||
        goHasSuffix command " -A" then "*"
    else ""

/-- Abstraction of the Go regexp package for operator-supplied namespace
patterns: compiles p says whether regexp.Compile p succeeds, matches p s
whether the compiled p matches s. The validator's results are proved for
every engine; concrete evaluations use engines only on dead branches. -/
structure RegexEngine where
  compiles : String → Bool
  reMatch : String → String → Bool

/-- An engine on which nothing compiles or matches, for concrete instances
whose allow-lists hold no pattern. -/
def noopRegexEngine : RegexEngine :=
  ⟨fun _ => false, fun _ _ => false⟩

/-- SecurityConfig: the access level string ("readonly", "readwrite",
"admin"), the literal namespace allow-list, and the compiled namespace
patterns (stored by their anchored source text). -/
structure SecurityConfig where
  AccessLevel : String
  allowedNamespaces : List String
  allowedNamespacesRe : List String

/-- The regexSpecialChars string of SetAllowedNamespaces. -/
def regexSpecialChars : List Char :=
  ['.', '*', '+', '?', '[', ']', '(', ')', '\x7b', '\x7d', '|', '^', '$', '\\']

/-- Whether a token contains any regex metacharacter. -/
def containsMetachar (l : List Char) : Bool :=
  l.any (fun c => regexSpecialChars.contains c)

/-- The anchored pattern SetAllowedNamespaces compiles for a token. -/
def anchored (t : List Char) : String :=
  "^" ++ String.mk t ++ "$"

/-- Loop of SetAllowedNamespaces over the comma-separated tokens: trim, drop
empties, store metacharacter tokens that compile as patterns and everything
else as literals. Returns (literals, patterns). -/
def setAllowedAux (E : RegexEngine) : List (List Char) → List String × List String
  | [] => ([], [])
  | ns :: rest =>
    let t := goTrimSpace ns
    let p := setAllowedAux E rest
    if t.isEmpty then p
    else if containsMetachar t then
      if E.compiles (anchored t) then (p.1, anchored t :: p.2)
      else (String.mk t :: p.1, p.2)
    else (String.mk t :: p.1, p.2)

/-- SetAllowedNamespaces from the security config: the (literals, patterns)
pair the call stores. -/
def SetAllowedNamespaces (E : RegexEngine) (namespaces : String) : List String × List String :=
  if namespaces = "" then ([], [])
  else setAllowedAux E (splitOnComma namespaces.data)

/-- IsNamespaceAllowed: everything is allowed when no restriction is
configured; otherwise an exact literal match or a pattern match. -/
def IsNamespaceAllowed (E : RegexEngine) (s : SecurityConfig) (ns : String) : Bool :=
  if s.allowedNamespaces.isEmpty && s.allowedNamespacesRe.isEmpty then true
  else if s.allowedNamespaces.any (fun a => a == ns) then true
  else s.allowedNamespacesRe.any (fun pat => E.reMatch pat ns)

/-- validateNamespaceScope from pkg/security/validator.go. -/
def validateNamespaceScope (E : RegexEngine) (secConfig : SecurityConfig)
    (command : String) : Option String :=
  let ns := extractNamespaceFromCommand command
  if ns = "*" ∧ (secConfig.allowedNamespaces.length > 0 ∨ secConfig.allowedNamespacesRe.length > 0) then
    some "Error: Access to all namespaces is restricted by security configuration"
  else if ns ≠ "" ∧ ns ≠ "*" then
    if !IsNamespaceAllowed E secConfig ns then
      some ("Error: Access to namespace '" ++ ns ++ "' is denied by security configuration")
    else none
  else none

/-- validateAccessLevel from pkg/security/validator.go: the three-branch
switch on the configured access level. -/
def validateAccessLevel (secConfig : SecurityConfig) (command commandType : String) : Option String :=
  let readOperations := getReadOperationsList commandType
  let readWriteOperations := getReadWriteOperationsList commandType
  let adminOperations := getAdminOperationsList commandType
  let operation := extractOperationFromCommand command commandType
  if secConfig.AccessLevel = "readonly" then
    if !isOperationInList operation readOperations then
      some "Error: Cannot execute write or admin operations in read-only mode"
    else none
  else if secConfig.AccessLevel = "readwrite" then
    if !isOperationInList operation readOperations && !isOperationInList operation readWriteOperations then
      if isOperationInList operation adminOperations then
        some "Error: Cannot execute admin operations in read-write mode"
      else some "Error: Operation not allowed in read-write mode"
    else none
  else if secConfig.AccessLevel = "admin" then
    if !isOperationInList operation readOperations && !isOperationInList operation readWriteOperations &&
        !isOperationInList operation adminOperations then
      some "Error: Unknown operation"
    else none
  else some "Error: Invalid access level configuration"

/-- ValidateCommand: access-level check first, then namespace scope. -/
def ValidateCommand (E : RegexEngine) (secConfig : SecurityConfig)
    (command commandType : String) : Option String :=
  match validateAccessLevel secConfig command commandType with
  | some e => some e
  | none => validateNamespaceScope E secConfig command

/-- The Name fields of GetReadOnlyKubectlCommands (pkg/kubectl command
tables), the list determineCommandCategory scans first. -/
def readOnlyKubectlCommandNames : List String :=
  ["get", "describe", "explain", "logs", "api-resources", "api-versions",
   "diff", "cluster-info", "top", "events", "auth"]

/-- The Name fields of GetAdminKubectlCommands. -/
def adminKubectlCommandNames : List String :=
  ["cordon", "uncordon", "drain", "taint", "certificate"]

/-- determineCommandCategory from pkg/kubectl/kubectl_executor.go: base
command against the read-only then admin name tables, special cases for
rollout status/history and auth can-i, default read-write. -/
def determineCommandCategory (command : String) : String :=
  match goFields command with
  | [] => "read-only"
  | baseCmd :: rest =>
    if readOnlyKubectlCommandNames.any (fun n => n == baseCmd) then "read-only"
    else if adminKubectlCommandNames.any (fun n => n == baseCmd) then "admin"
    else
      match rest with
      | [] => "read-write"
      | sub :: _ =>
        if baseCmd == "rollout" && (sub == "status" || sub == "history") then "read-only"
        else if baseCmd == "auth" && sub == "can-i" then "read-only"
        else "read-write"

/-- checkAccessLevel from pkg/kubectl/kubectl_executor.go: the structured
executor's own tier gate over the derived category. -/
def checkAccessLevel (command accessLevel : String) : Option String :=
  let category := determineCommandCategory command
  if accessLevel = "readonly" then
    if category != "read-only" then
      some ("command requires " ++ category ++ " access, but current access level is read-only")
    else none
  else if accessLevel = "readwrite" then
    if category == "admin" then
      some "command requires admin access, but current access level is read-write"
    else none
  else if accessLevel = "admin" then none
  else some ("unknown access level: " ++ accessLevel)

/-- MapOperationToCommand from the kubectl tool tables: operation passes
through, except rollout, auth and certificate, which append their resource
as a subcommand; an unknown tool maps to the empty fragment. -/
def mapOperationToCommand (toolName operation resource : String) : String :=
  if toolName = "kubectl_resources" then operation
  else if toolName = "kubectl_workloads" then
    if operation == "rollout" then "rollout " ++ resource else operation
  else if toolName = "kubectl_metadata" then operation
  else if toolName = "kubectl_diagnostics" then operation
  else if toolName = "kubectl_cluster" then operation
  else if toolName = "kubectl_nodes" then operation
  else if toolName = "kubectl_config" then
    if operation == "auth" then "auth " ++ resource
    else if operation == "certificate" then "certificate " ++ resource
    else operation
  else ""

/-- buildCommand from pkg/kubectl/kubectl_executor.go: a fragment that
already holds a space keeps only fragment and args; otherwise fragment,
nonempty resource and nonempty args are joined with spaces. -/
def buildCommand (kubectlCommand resource args : String) : String :=
  if goContains kubectlCommand " " then
    if args != "" then kubectlCommand ++ " " ++ args else kubectlCommand
  else
    let parts := [kubectlCommand]
    let parts := if resource != "" then parts ++ [resource] else parts
    let parts := if args != "" then parts ++ [args] else parts
    goJoin parts

/-- validateResourcesOperation: get/describe always allowed, the five write
operations deferred to the access-level check, everything else rejected
naming the seven valid operations. -/
def validateResourcesOperation (operation : String) : Option String :=
  let readOnlyOps := ["get", "describe"]
  let writeOps := ["create", "delete", "apply", "patch", "replace"]
  if readOnlyOps.any (fun v => operation == v) then none
  else if writeOps.any (fun v => operation == v) then none
  else some ("invalid operation '" ++ operation ++ "' for resources tool. Valid operations: " ++
    goJoinComma (readOnlyOps ++ writeOps))

/-- validateWorkloadsOperation: five operations, rollout requiring one of
six subcommands in its resource field. -/
def validateWorkloadsOperation (operation resource : String) : Option String :=
  let validOps := ["run", "expose", "scale", "autoscale", "rollout"]
  let validSubcmds := ["status", "history", "undo", "restart", "pause", "resume"]
  if validOps.any (fun v => operation == v) then
    if operation == "rollout" then
      if validSubcmds.any (fun s => resource == s) then none
      else some ("invalid rollout subcommand '" ++ resource ++ "'. Valid subcommands: " ++
        goJoinComma validSubcmds)
    else none
  else some ("invalid operation '" ++ operation ++ "' for workloads tool. Valid operations: " ++
    goJoinComma validOps)

/-- validateMetadataOperation. -/
def validateMetadataOperation (operation : String) : Option String :=
  let validOps := ["label", "annotate", "set"]
  if validOps.any (fun v => operation == v) then none
  else some ("invalid operation '" ++ operation ++ "' for metadata tool. Valid operations: " ++
    goJoinComma validOps)

/-- validateDiagnosticsOperation. -/
def validateDiagnosticsOperation (operation : String) : Option String :=
  let validOps := ["logs", "events", "top", "exec", "cp"]
  if validOps.any (fun v => operation == v) then none
  else some ("invalid operation '" ++ operation ++ "' for diagnostics tool. Valid operations: " ++
    goJoinComma validOps)

/-- validateClusterOperation. -/
def validateClusterOperation (operation : String) : Option String :=
  let validOps := ["cluster-info", "api-resources", "api-versions", "explain"]
  if validOps.any (fun v => operation == v) then none
  else some ("invalid operation '" ++ operation ++ "' for cluster tool. Valid operations: " ++
    goJoinComma validOps)

/-- validateNodesOperation. -/
def validateNodesOperation (operation : String) : Option String :=
  let validOps := ["cordon", "uncordon", "drain", "taint"]
  if validOps.any (fun v => operation == v) then none
  else some ("invalid operation '" ++ operation ++ "' for nodes tool. Valid operations: " ++
    goJoinComma validOps)

/-- validateConfigOperation: diff, auth can-i, certificate approve/deny. -/
def validateConfigOperation (operation resource : String) : Option String :=
  if operation = "diff" then none
  else if operation = "auth" then
    if resource != "can-i" then some "auth operation requires 'can-i' as resource" else none
  else if operation = "certificate" then
    if resource == "approve" || resource == "deny" then none
    else some ("invalid certificate subcommand '" ++ resource ++ "'. Valid subcommands: " ++
      goJoinComma ["approve", "deny"])
  else some ("invalid operation '" ++ operation ++
    "' for config tool. Valid operations: diff, auth, certificate")

/-- validateCombination: dispatch to the per-tool validator. -/
def validateCombination (toolName operation resource : String) : Option String :=
  if toolName = "kubectl_resources" then validateResourcesOperation operation
  else if toolName = "kubectl_workloads" then validateWorkloadsOperation operation resource
  else if toolName = "kubectl_metadata" then validateMetadataOperation operation
  else if toolName = "kubectl_diagnostics" then validateDiagnosticsOperation operation
  else if toolName = "kubectl_cluster" then validateClusterOperation operation
  else if toolName = "kubectl_nodes" then validateNodesOperation operation
  else if toolName = "kubectl_config" then validateConfigOperation operation resource
  else some ("unknown tool: " ++ toolName)

/-- ConfigData: the executor-side access level string and the validator's
security configuration, as the Execute path reads them. -/
structure ConfigData where
  AccessLevel : String
  securityConfig : SecurityConfig

/-- Execute from pkg/kubectl/kubectl_executor.go, up to the point the
validated command is handed to the subprocess runner: combination
validation, operation mapping, command building, the executor's
access-level check, then the security validator; ok carries the full
command that would run. -/
def executeStructured (E : RegexEngine) (toolName operation resource args : String)
    (cfg : ConfigData) : Except String String :=
  match validateCombination toolName operation resource with
  | some e => Except.error e
  | none =>
    let kubectlCommand := mapOperationToCommand toolName operation resource
    let fullCommand := buildCommand kubectlCommand resource args
    match checkAccessLevel fullCommand cfg.AccessLevel with
    | some e => Except.error e
    | none =>
      match ValidateCommand E cfg.securityConfig fullCommand "kubectl" with
      | some e => Except.error e
      | none => Except.ok fullCommand

/-! Helper lemmas about the embedded validator. -/

/-- Membership in an operation table is what the linear scan decides. -/
lemma isOperationInList_iff (op : String) (l : List String) :
    isOperationInList op l = true ↔ op ∈ l := by
  simp [isOperationInList, List.any_eq_true]

/-- The scan returns false off the table. -/
lemma isOperationInList_eq_false (op : String) (l : List String) (h : op ∉ l) :
    isOperationInList op l = false := by
  cases hb : isOperationInList op l
  · rfl
  · exact absurd ((isOperationInList_iff op l).mp hb) h

/-- With no literals and no patterns every namespace is allowed. -/
lemma IsNamespaceAllowed_nil (E : RegexEngine) (lvl ns : String) :
    IsNamespaceAllowed E ⟨lvl, [], []⟩ ns = true := rfl

/-- With no literals and no patterns the namespace-scope check never fires. -/
lemma validateNamespaceScope_nil (E : RegexEngine) (lvl cmd : String) :
    validateNamespaceScope E ⟨lvl, [], []⟩ cmd = none := by
  simp [validateNamespaceScope, IsNamespaceAllowed_nil]

/-- An access-level error short-circuits ValidateCommand. -/
lemma ValidateCommand_of_error (E : RegexEngine) (cfg : SecurityConfig) (cmd ct e : String)
    (h : validateAccessLevel cfg cmd ct = some e) :
    ValidateCommand E cfg cmd ct = some e := by
  unfold ValidateCommand
  rw [h]

/-- When the access-level check passes, ValidateCommand is the namespace check. -/
lemma ValidateCommand_of_none (E : RegexEngine) (cfg : SecurityConfig) (cmd ct : String)
    (h : validateAccessLevel cfg cmd ct = none) :
    ValidateCommand E cfg cmd ct = validateNamespaceScope E cfg cmd := by
  unfold ValidateCommand
  rw [h]

/-- With an empty allow-list, ValidateCommand is exactly the access-level check. -/
lemma ValidateCommand_nil (E : RegexEngine) (lvl cmd ct : String) :
    ValidateCommand E ⟨lvl, [], []⟩ cmd ct = validateAccessLevel ⟨lvl, [], []⟩ cmd ct := by
  cases h : validateAccessLevel ⟨lvl, [], []⟩ cmd ct
  · rw [ValidateCommand_of_none E _ _ _ h, validateNamespaceScope_nil]
  · rw [ValidateCommand_of_error E _ _ _ _ h]

/-- The readonly branch of validateAccessLevel, as a single conditional. -/
lemma validateAccessLevel_readonly (nsl nsr : List String) (cmd ct : String) :
    validateAccessLevel ⟨"readonly", nsl, nsr⟩ cmd ct =
      (if isOperationInList (extractOperationFromCommand cmd ct) (getReadOperationsList ct) then
        none
      else some "Error: Cannot execute write or admin operations in read-only mode") := by
  cases h : isOperationInList (extractOperationFromCommand cmd ct) (getReadOperationsList ct) <;>
    simp [validateAccessLevel, h]

/-- The readwrite branch of validateAccessLevel, as nested conditionals. -/
lemma validateAccessLevel_readwrite (nsl nsr : List String) (cmd ct : String) :
    validateAccessLevel ⟨"readwrite", nsl, nsr⟩ cmd ct =
      (if isOperationInList (extractOperationFromCommand cmd ct) (getReadOperationsList ct) then
        none
      else if isOperationInList (extractOperationFromCommand cmd ct) (getReadWriteOperationsList ct) then
        none
      else if isOperationInList (extractOperationFromCommand cmd ct) (getAdminOperationsList ct) then
        some "Error: Cannot execute admin operations in read-write mode"
      else some "Error: Operation not allowed in read-write mode") := by
  cases h1 : isOperationInList (extractOperationFromCommand cmd ct) (getReadOperationsList ct) <;>
    cases h2 : isOperationInList (extractOperationFromCommand cmd ct) (getReadWriteOperationsList ct) <;>
      cases h3 : isOperationInList (extractOperationFromCommand cmd ct) (getAdminOperationsList ct) <;>
        simp [validateAccessLevel, h1, h2, h3]

/-- The admin branch of validateAccessLevel, as nested conditionals. -/
lemma validateAccessLevel_admin (nsl nsr : List String) (cmd ct : String) :
    validateAccessLevel ⟨"admin", nsl, nsr⟩ cmd ct =
      (if isOperationInList (extractOperationFromCommand cmd ct) (getReadOperationsList ct) then
        none
      else if isOperationInList (extractOperationFromCommand cmd ct) (getReadWriteOperationsList ct) then
        none
      else if isOperationInList (extractOperationFromCommand cmd ct) (getAdminOperationsList ct) then
        none
      else some "Error: Unknown operation") := by
  cases h1 : isOperationInList (extractOperationFromCommand cmd ct) (getReadOperationsList ct) <;>
    cases h2 : isOperationInList (extractOperationFromCommand cmd ct) (getReadWriteOperationsList ct) <;>
      cases h3 : isOperationInList (extractOperationFromCommand cmd ct) (getAdminOperationsList ct) <;>
        simp [validateAccessLevel, h1, h2, h3]

/-- The kubectl family's three tables. -/
lemma getReadOperationsList_kubectl : getReadOperationsList "kubectl" = KubectlReadOperations := rfl

/-- The kubectl read-write table. -/
lemma getReadWriteOperationsList_kubectl :
    getReadWriteOperationsList "kubectl" = KubectlReadWriteOperations := rfl

/-- The kubectl admin table. -/
lemma getAdminOperationsList_kubectl : getAdminOperationsList "kubectl" = KubectlAdminOperations := rfl

/-- The kubectl tier tables are disjoint: read-write vs read-only. -/
lemma kubectl_rw_not_read : ∀ op ∈ KubectlReadWriteOperations,
    isOperationInList op KubectlReadOperations = false := by decide

/-- The kubectl tier tables are disjoint: admin vs read-only. -/
lemma kubectl_admin_not_read : ∀ op ∈ KubectlAdminOperations,
    isOperationInList op KubectlReadOperations = false := by decide

/-- The kubectl tier tables are disjoint: admin vs read-write. -/
lemma kubectl_admin_not_rw : ∀ op ∈ KubectlAdminOperations,
    isOperationInList op KubectlReadWriteOperations = false := by decide

/-- Denial at every access level, given that the extracted operation sits in
none of the family's three tables (stated on the scan booleans). -/
lemma denied_at_all_levels (E : RegexEngine) (cmd ct : String) (nsl nsr : List String)
    (b1 : isOperationInList (extractOperationFromCommand cmd ct) (getReadOperationsList ct) = false)
    (b2 : isOperationInList (extractOperationFromCommand cmd ct) (getReadWriteOperationsList ct) = false)
    (b3 : isOperationInList (extractOperationFromCommand cmd ct) (getAdminOperationsList ct) = false) :
    ValidateCommand E ⟨"readonly", nsl, nsr⟩ cmd ct =
      some "Error: Cannot execute write or admin operations in read-only mode" ∧
    ValidateCommand E ⟨"readwrite", nsl, nsr⟩ cmd ct =
      some "Error: Operation not allowed in read-write mode" ∧
    ValidateCommand E ⟨"admin", nsl, nsr⟩ cmd ct = some "Error: Unknown operation" := by
  refine ⟨?_, ?_, ?_⟩
  · exact ValidateCommand_of_error E _ _ _ _ (by rw [validateAccessLevel_readonly, b1]; rfl)
  · exact ValidateCommand_of_error E _ _ _ _
      (by rw [validateAccessLevel_readwrite, b1, b2, b3]; rfl)
  · exact ValidateCommand_of_error E _ _ _ _
      (by rw [validateAccessLevel_admin, b1, b2, b3]; rfl)

/-- C3: monotonic tier ceiling for the kubectl family with an empty namespace
allow-list. An operation extracted from the command (the first non-flag token
after the binary name) that sits in the read-only table is allowed under all
three access levels; one in the read-write table is allowed under ReadWrite
and Admin and denied under ReadOnly with a reason containing "read-only
mode"; one in the admin table is allowed only under Admin and is denied under
ReadWrite with a reason containing "admin operations". -/
theorem kubectl_monotonic_tier_ceiling (E : RegexEngine) (cmd op : String)
    (h : extractOperationFromCommand cmd "kubectl" = op) :
    (op ∈ KubectlReadOperations →
      ValidateCommand E ⟨"readonly", [], []⟩ cmd "kubectl" = none ∧
      ValidateCommand E ⟨"readwrite", [], []⟩ cmd "kubectl" = none ∧
      ValidateCommand E ⟨"admin", [], []⟩ cmd "kubectl" = none) ∧
    (op ∈ KubectlReadWriteOperations →
      ValidateCommand E ⟨"readwrite", [], []⟩ cmd "kubectl" = none ∧
      ValidateCommand E ⟨"admin", [], []⟩ cmd "kubectl" = none ∧
      ValidateCommand E ⟨"readonly", [], []⟩ cmd "kubectl" =
        some "Error: Cannot execute write or admin operations in read-only mode" ∧
      goContains "Error: Cannot execute write or admin operations in read-only mode"
        "read-only mode" = true) ∧
    (op ∈ KubectlAdminOperations →
      ValidateCommand E ⟨"admin", [], []⟩ cmd "kubectl" = none ∧
      ValidateCommand E ⟨"readwrite", [], []⟩ cmd "kubectl" =
        some "Error: Cannot execute admin operations in read-write mode" ∧
      goContains "Error: Cannot execute admin operations in read-write mode"
        "admin operations" = true ∧
      ValidateCommand E ⟨"readonly", [], []⟩ cmd "kubectl" =
        some "Error: Cannot execute write or admin operations in read-only mode") := by
  refine ⟨fun hm => ?_, fun hm => ?_, fun hm => ?_⟩
  · have hr : isOperationInList op (getReadOperationsList "kubectl") = true := by
      rw [getReadOperationsList_kubectl, isOperationInList_iff]; exact hm
    refine ⟨?_, ?_, ?_⟩ <;> rw [ValidateCommand_nil]
    · rw [validateAccessLevel_readonly, h, hr]; rfl
    · rw [validateAccessLevel_readwrite, h, hr]; rfl
    · rw [validateAccessLevel_admin, h, hr]; rfl
  · have hr : isOperationInList op (getReadOperationsList "kubectl") = false := by
      rw [getReadOperationsList_kubectl]; exact kubectl_rw_not_read op hm
    have hw : isOperationInList op (getReadWriteOperationsList "kubectl") = true := by
      rw [getReadWriteOperationsList_kubectl, isOperationInList_iff]; exact hm
    refine ⟨?_, ?_, ?_, by decide⟩ <;> rw [ValidateCommand_nil]
    · rw [validateAccessLevel_readwrite, h, hr, hw]; rfl
    · rw [validateAccessLevel_admin, h, hr, hw]; rfl
    · rw [validateAccessLevel_readonly, h, hr]; rfl
  · have hr : isOperationInList op (getReadOperationsList "kubectl") = false := by
      rw [getReadOperationsList_kubectl]; exact kubectl_admin_not_read op hm
    have hw : isOperationInList op (getReadWriteOperationsList "kubectl") = false := by
      rw [getReadWriteOperationsList_kubectl]; exact kubectl_admin_not_rw op hm
    have ha : isOperationInList op (getAdminOperationsList "kubectl") = true := by
      rw [getAdminOperationsList_kubectl, isOperationInList_iff]; exact hm
    refine ⟨?_, ?_, by decide, ?_⟩ <;> rw [ValidateCommand_nil]
    · rw [validateAccessLevel_admin, h, hr, hw, ha]; rfl
    · rw [validateAccessLevel_readwrite, h, hr, hw, ha]; rfl
    · rw [validateAccessLevel_readonly, h, hr]; rfl

/-- Witness for C3 at the spec's Scenario A input: kubectl delete pods mypod
is a read-write operation, denied at ReadOnly with the read-only-mode reason
and allowed at ReadWrite and Admin. -/
theorem kubectl_monotonic_tier_ceiling_witness :
    extractOperationFromCommand "kubectl delete pods mypod" "kubectl" = "delete" ∧
    ("delete" ∈ KubectlReadWriteOperations →
      ValidateCommand noopRegexEngine ⟨"readwrite", [], []⟩ "kubectl delete pods mypod" "kubectl" = none ∧
      ValidateCommand noopRegexEngine ⟨"admin", [], []⟩ "kubectl delete pods mypod" "kubectl" = none ∧
      ValidateCommand noopRegexEngine ⟨"readonly", [], []⟩ "kubectl delete pods mypod" "kubectl" =
        some "Error: Cannot execute write or admin operations in read-only mode" ∧
      goContains "Error: Cannot execute write or admin operations in read-only mode"
        "read-only mode" = true) :=
  ⟨rfl, (kubectl_monotonic_tier_ceiling noopRegexEngine "kubectl delete pods mypod" "delete" rfl).2.1⟩

/-- C4: fail-closed on unknown operations. An extracted operation absent from
all three of a CLI family's tier tables is denied by ValidateCommand under
ReadOnly, ReadWrite and Admin, whatever the namespace configuration; under
Admin the reason is the unknown-operation message. The helm, cilium and
hubble families have empty read-write and admin tables, so any of their
operations outside the read-only list (e.g. helm install) discharges the
hypotheses and is denied at every access level. -/
theorem fail_closed_unknown_operation (E : RegexEngine) (cmd ct op : String)
    (nsl nsr : List String) (h : extractOperationFromCommand cmd ct = op)
    (h1 : op ∉ getReadOperationsList ct) (h2 : op ∉ getReadWriteOperationsList ct)
    (h3 : op ∉ getAdminOperationsList ct) :
    ValidateCommand E ⟨"readonly", nsl, nsr⟩ cmd ct =
      some "Error: Cannot execute write or admin operations in read-only mode" ∧
    ValidateCommand E ⟨"readwrite", nsl, nsr⟩ cmd ct =
      some "Error: Operation not allowed in read-write mode" ∧
    ValidateCommand E ⟨"admin", nsl, nsr⟩ cmd ct = some "Error: Unknown operation" := by
  refine denied_at_all_levels E cmd ct nsl nsr ?_ ?_ ?_ <;> rw [h]
  · exact isOperationInList_eq_false op _ h1
  · exact isOperationInList_eq_false op _ h2
  · exact isOperationInList_eq_false op _ h3

/-- Witness for C4 at helm install chart: install is outside every helm
table and the command is denied at all three access levels, with the
unknown-operation reason under Admin. -/
theorem fail_closed_unknown_operation_witness :
    (extractOperationFromCommand "helm install chart" "helm" = "install" ∧
      "install" ∉ getReadOperationsList "helm" ∧
      "install" ∉ getReadWriteOperationsList "helm" ∧
      "install" ∉ getAdminOperationsList "helm") ∧
    (ValidateCommand noopRegexEngine ⟨"readonly", [], []⟩ "helm install chart" "helm" =
      some "Error: Cannot execute write or admin operations in read-only mode" ∧
    ValidateCommand noopRegexEngine ⟨"readwrite", [], []⟩ "helm install chart" "helm" =
      some "Error: Operation not allowed in read-write mode" ∧
    ValidateCommand noopRegexEngine ⟨"admin", [], []⟩ "helm install chart" "helm" =
      some "Error: Unknown operation") :=
  ⟨⟨rfl, by decide, by decide, by decide⟩,
    fail_closed_unknown_operation noopRegexEngine "helm install chart" "helm" "install" [] []
      rfl (by decide) (by decide) (by decide)⟩

/-- Loop lemma for C9: when every token is a flag or the binary name, the
extraction loop never assigns and the operation stays empty. -/
lemma firstOperation_all_skipped (L : List String) (ct : String)
    (h : ∀ t ∈ L, goStartsWith t "-" = true ∨ t = ct) : firstOperation L ct = "" := by
  induction L with
  | nil => rfl
  | cons t rest ih =>
    have hrest := ih (fun x hx => h x (List.mem_cons_of_mem t hx))
    rcases h t (List.mem_cons_self t rest) with hpre | heq
    · simp [firstOperation, hpre, hrest]
    · subst heq
      cases hp : goStartsWith t "-" <;> simp [firstOperation, hp, hrest]

/-- The empty operation is in no family's read table. -/
lemma empty_op_not_read (ct : String) : isOperationInList "" (getReadOperationsList ct) = false := by
  unfold getReadOperationsList
  split_ifs <;> decide

/-- The empty operation is in no family's read-write table. -/
lemma empty_op_not_rw (ct : String) :
    isOperationInList "" (getReadWriteOperationsList ct) = false := by
  unfold getReadWriteOperationsList
  split_ifs <;> decide

/-- The empty operation is in no family's admin table. -/
lemma empty_op_not_admin (ct : String) :
    isOperationInList "" (getAdminOperationsList ct) = false := by
  unfold getAdminOperationsList
  split_ifs <;> decide

/-- C9: implicit fail-closed edge case. When every whitespace token of the
command starts with "-" or equals the family's binary name (including the
empty command), the extracted operation is the empty string, which belongs
to no tier table, so ValidateCommand denies at every access level. -/
theorem flags_only_command_denied (E : RegexEngine) (cmd ct : String)
    (nsl nsr : List String)
    (h : ∀ t ∈ goFields cmd, goStartsWith t "-" = true ∨ t = ct) :
    extractOperationFromCommand cmd ct = "" ∧
    ValidateCommand E ⟨"readonly", nsl, nsr⟩ cmd ct =
      some "Error: Cannot execute write or admin operations in read-only mode" ∧
    ValidateCommand E ⟨"readwrite", nsl, nsr⟩ cmd ct =
      some "Error: Operation not allowed in read-write mode" ∧
    ValidateCommand E ⟨"admin", nsl, nsr⟩ cmd ct = some "Error: Unknown operation" := by
  have hop : extractOperationFromCommand cmd ct = "" :=
    firstOperation_all_skipped (goFields cmd) ct h
  refine ⟨hop, denied_at_all_levels E cmd ct nsl nsr ?_ ?_ ?_⟩ <;> rw [hop]
  · exact empty_op_not_read ct
  · exact empty_op_not_rw ct
  · exact empty_op_not_admin ct

/-- Witness for C9 at kubectl --help -v: all tokens are the binary name or
flags, and the command is denied at all three access levels. -/
theorem flags_only_command_denied_witness :
    (∀ t ∈ goFields "kubectl --help -v", goStartsWith t "-" = true ∨ t = "kubectl") ∧
    (extractOperationFromCommand "kubectl --help -v" "kubectl" = "" ∧
    ValidateCommand noopRegexEngine ⟨"readonly", ["ns1"], []⟩ "kubectl --help -v" "kubectl" =
      some "Error: Cannot execute write or admin operations in read-only mode" ∧
    ValidateCommand noopRegexEngine ⟨"readwrite", ["ns1"], []⟩ "kubectl --help -v" "kubectl" =
      some "Error: Operation not allowed in read-write mode" ∧
    ValidateCommand noopRegexEngine ⟨"admin", ["ns1"], []⟩ "kubectl --help -v" "kubectl" =
      some "Error: Unknown operation") :=
  ⟨by decide,
    flags_only_command_denied noopRegexEngine "kubectl --help -v" "kubectl" ["ns1"] []
      (by decide)⟩

/-- C10: implicit wildcard over-match. When the namespace-flag pattern does
not match and no slash shorthand occurs, any occurrence of the substring
" -A" — including as a prefix of a longer flag token such as "-All" — makes
the extractor return the all-namespaces wildcard; with any non-empty
allow-list the namespace check then denies with the all-namespaces-restricted
reason, and with an empty allow-list it passes. The concrete command
"get pods -All" shows the full ValidateCommand outcomes. -/
theorem wildcard_overmatch (E : RegexEngine) (cmd lvl : String) (nsl nsr : List String)
    (h1 : findNsMatch cmd.data = none)
    (h2 : hasSlashShorthand cmd.data = false)
    (h3 : goContains cmd " -A" = true) :
    extractNamespaceFromCommand cmd = "*" ∧
    (nsl ≠ [] ∨ nsr ≠ [] →
      validateNamespaceScope E ⟨lvl, nsl, nsr⟩ cmd =
        some "Error: Access to all namespaces is restricted by security configuration") ∧
    validateNamespaceScope E ⟨lvl, [], []⟩ cmd = none ∧
    ValidateCommand E ⟨"readonly", ["a"], []⟩ "get pods -All" "kubectl" =
      some "Error: Access to all namespaces is restricted by security configuration" ∧
    ValidateCommand E ⟨"readonly", [], []⟩ "get pods -All" "kubectl" = none := by
  have hns : extractNamespaceFromCommand cmd = "*" := by
    unfold extractNamespaceFromCommand
    rw [h1, h2, h3]
    simp
  refine ⟨hns, fun hne => ?_, validateNamespaceScope_nil E lvl cmd, rfl, rfl⟩
  have hlen : nsl.length > 0 ∨ nsr.length > 0 := by
    rcases hne with hne | hne
    · exact Or.inl (List.length_pos.mpr hne)
    · exact Or.inr (List.length_pos.mpr hne)
  simp only [validateNamespaceScope]
  rw [if_pos ⟨hns, hlen⟩]

/-- Witness for C10 at get pods -All with allow-list ["a"]. -/
theorem wildcard_overmatch_witness :
    (findNsMatch ("get pods -All").data = none ∧
      hasSlashShorthand ("get pods -All").data = false ∧
      goContains "get pods -All" " -A" = true) ∧
    (extractNamespaceFromCommand "get pods -All" = "*" ∧
      (["a"] ≠ ([] : List String) ∨ ([] : List String) ≠ [] →
        validateNamespaceScope noopRegexEngine ⟨"readonly", ["a"], []⟩ "get pods -All" =
          some "Error: Access to all namespaces is restricted by security configuration") ∧
      validateNamespaceScope noopRegexEngine ⟨"readonly", [], []⟩ "get pods -All" = none ∧
      ValidateCommand noopRegexEngine ⟨"readonly", ["a"], []⟩ "get pods -All" "kubectl" =
        some "Error: Access to all namespaces is restricted by security configuration" ∧
      ValidateCommand noopRegexEngine ⟨"readonly", [], []⟩ "get pods -All" "kubectl" = none) :=
  ⟨⟨by decide, by decide, by decide⟩,
    wildcard_overmatch noopRegexEngine "get pods -All" "readonly" ["a"] []
      (by decide) (by decide) (by decide)⟩

/-- C5: namespace whitelist semantics. SetAllowedNamespaces "a,b" stores the
two literals and no pattern, whatever the regex engine; with that allow-list
ValidateCommand (at any of the three access levels, "get" being read-only)
allows -n a, denies -n c naming the namespace, and denies --all-namespaces
with the all-namespaces-restricted reason; with the empty allow-list all
three commands are allowed. -/
theorem namespace_whitelist_scenarios (E : RegexEngine) (lvl : String)
    (hlvl : lvl = "readonly" ∨ lvl = "readwrite" ∨ lvl = "admin") :
    SetAllowedNamespaces E "a,b" = (["a", "b"], []) ∧
    SetAllowedNamespaces E "" = ([], []) ∧
    ValidateCommand E ⟨lvl, ["a", "b"], []⟩ "get pods -n a" "kubectl" = none ∧
    ValidateCommand E ⟨lvl, ["a", "b"], []⟩ "get pods -n c" "kubectl" =
      some "Error: Access to namespace 'c' is denied by security configuration" ∧
    ValidateCommand E ⟨lvl, ["a", "b"], []⟩ "get pods --all-namespaces" "kubectl" =
      some "Error: Access to all namespaces is restricted by security configuration" ∧
    ValidateCommand E ⟨lvl, [], []⟩ "get pods -n a" "kubectl" = none ∧
    ValidateCommand E ⟨lvl, [], []⟩ "get pods -n c" "kubectl" = none ∧
    ValidateCommand E ⟨lvl, [], []⟩ "get pods --all-namespaces" "kubectl" = none := by
  rcases hlvl with rfl | rfl | rfl <;>
    exact ⟨rfl, rfl, rfl, rfl, rfl, rfl, rfl, rfl⟩

/-- Witness for C5 at access level readonly. -/
theorem namespace_whitelist_scenarios_witness :
    ("readonly" = "readonly" ∨ "readonly" = "readwrite" ∨ "readonly" = "admin") ∧
    (SetAllowedNamespaces noopRegexEngine "a,b" = (["a", "b"], []) ∧
      SetAllowedNamespaces noopRegexEngine "" = ([], []) ∧
      ValidateCommand noopRegexEngine ⟨"readonly", ["a", "b"], []⟩ "get pods -n a" "kubectl" = none ∧
      ValidateCommand noopRegexEngine ⟨"readonly", ["a", "b"], []⟩ "get pods -n c" "kubectl" =
        some "Error: Access to namespace 'c' is denied by security configuration" ∧
      ValidateCommand noopRegexEngine ⟨"readonly", ["a", "b"], []⟩ "get pods --all-namespaces" "kubectl" =
        some "Error: Access to all namespaces is restricted by security configuration" ∧
      ValidateCommand noopRegexEngine ⟨"readonly", [], []⟩ "get pods -n a" "kubectl" = none ∧
      ValidateCommand noopRegexEngine ⟨"readonly", [], []⟩ "get pods -n c" "kubectl" = none ∧
      ValidateCommand noopRegexEngine ⟨"readonly", [], []⟩ "get pods --all-namespaces" "kubectl" = none) :=
  ⟨Or.inl rfl, namespace_whitelist_scenarios noopRegexEngine "readonly" (Or.inl rfl)⟩

/-- Unfolding lemma: the slash scan on a cons is the head window or the scan
of the tail. -/
lemma hasSlashShorthand_cons (x : Char) (xs : List Char) :
    hasSlashShorthand (x :: xs) =
      ((match xs with
        | b :: c :: _ => !goRegexSpace x && b == '/' && !goRegexSpace c
        | _ => false) || hasSlashShorthand xs) := by
  match xs with
  | [] => rfl
  | [b] => rfl
  | b :: c :: rest => rfl

/-- The slash scan finds exactly the decompositions the pattern (\S+)/(\S+)
matches: a '/' with a non-whitespace character on each side. -/
lemma hasSlashShorthand_iff (l : List Char) :
    hasSlashShorthand l = true ↔
      ∃ pre a c post, l = pre ++ a :: '/' :: c :: post ∧
        goRegexSpace a = false ∧ goRegexSpace c = false := by
  induction l with
  | nil =>
    constructor
    · intro h; exact absurd h (by simp [hasSlashShorthand])
    · rintro ⟨pre, a, c, post, h, -, -⟩
      exact absurd h (by cases pre <;> simp)
  | cons x xs ih =>
    rw [hasSlashShorthand_cons, Bool.or_eq_true]
    constructor
    · rintro (hw | hrec)
      · rcases xs with _ | ⟨b, xs2⟩
        · simp at hw
        · rcases xs2 with _ | ⟨c, rest⟩
          · simp at hw
          · simp only [Bool.and_eq_true, beq_iff_eq, Bool.not_eq_true'] at hw
            obtain ⟨⟨hx, hb⟩, hc⟩ := hw
            subst hb
            exact ⟨[], x, c, rest, rfl, hx, hc⟩
      · obtain ⟨pre, a, c, post, heq, ha, hc⟩ := ih.mp hrec
        exact ⟨x :: pre, a, c, post, by rw [heq]; rfl, ha, hc⟩
    · rintro ⟨pre, a, c, post, heq, ha, hc⟩
      rcases pre with _ | ⟨p, pre2⟩
      · left
        simp only [List.nil_append, List.cons.injEq] at heq
        obtain ⟨rfl, hxs⟩ := heq
        subst hxs
        simp [ha, hc]
      · right
        simp only [List.cons_append, List.cons.injEq] at heq
        obtain ⟨-, hxs⟩ := heq
        exact ih.mpr ⟨pre2, a, c, post, hxs, ha, hc⟩

/-- When the extracted namespace is a concrete non-reserved name, the scope
check reduces to the allow-list test. -/
lemma validateNamespaceScope_named (E : RegexEngine) (cfg : SecurityConfig) (cmd ns : String)
    (h : extractNamespaceFromCommand cmd = ns) (h1 : ns ≠ "") (h2 : ns ≠ "*") :
    validateNamespaceScope E cfg cmd =
      (if IsNamespaceAllowed E cfg ns then none
       else some ("Error: Access to namespace '" ++ ns ++ "' is denied by security configuration")) := by
  simp only [validateNamespaceScope, h]
  rw [if_neg (fun hc => h2 hc.1), if_pos ⟨h1, h2⟩]
  cases hb : IsNamespaceAllowed E cfg ns <;> simp [hb]

/-- C6: namespace extraction priority. The extracted namespace is the value
captured by the -n or --namespace pattern when that pattern matches;
otherwise "default" when the command contains a token/token shorthand (the
slash scan is proved equivalent to the existence of a '/' flanked by
non-whitespace characters); otherwise the "*" wildcard when the command
contains an all-namespaces marker; otherwise empty. Consequently, with a
restricted literal allow-list, validate "get pod/mypod" is allowed iff
"default" is in the allow-list. -/
theorem namespace_extraction_priority (E : RegexEngine) (cmd lvl : String) (L : List String) :
    (∀ cap, findNsMatch cmd.data = some cap → extractNamespaceFromCommand cmd = String.mk cap) ∧
    (hasSlashShorthand cmd.data = true ↔
      ∃ pre a c post, cmd.data = pre ++ a :: '/' :: c :: post ∧
        goRegexSpace a = false ∧ goRegexSpace c = false) ∧
    (findNsMatch cmd.data = none → hasSlashShorthand cmd.data = true →
      extractNamespaceFromCommand cmd = "default") ∧
    (findNsMatch cmd.data = none → hasSlashShorthand cmd.data = false →
      (goContains cmd "--all-namespaces" || goContains cmd " -A" || goHasSuffix cmd " -A") = true →
      extractNamespaceFromCommand cmd = "*") ∧
    (findNsMatch cmd.data = none → hasSlashShorthand cmd.data = false →
      (goContains cmd "--all-namespaces" || goContains cmd " -A" || goHasSuffix cmd " -A") = false →
      extractNamespaceFromCommand cmd = "") ∧
    (L ≠ [] → (lvl = "readonly" ∨ lvl = "readwrite" ∨ lvl = "admin") →
      (ValidateCommand E ⟨lvl, L, []⟩ "get pod/mypod" "kubectl" = none ↔ "default" ∈ L)) := by
  refine ⟨?_, hasSlashShorthand_iff cmd.data, ?_, ?_, ?_, ?_⟩
  · intro cap hc
    unfold extractNamespaceFromCommand
    rw [hc]
  · intro hn hs
    unfold extractNamespaceFromCommand
    rw [hn]
    simp [hs]
  · intro hn hs hmark
    unfold extractNamespaceFromCommand
    rw [hn]
    simp [hs, hmark]
  · intro hn hs hmark
    unfold extractNamespaceFromCommand
    rw [hn]
    simp only [hs, hmark]
    simp
  · intro hL hlvl
    have hvns : validateNamespaceScope E ⟨lvl, L, []⟩ "get pod/mypod" =
        (if IsNamespaceAllowed E ⟨lvl, L, []⟩ "default" then none
         else some ("Error: Access to namespace '" ++ "default" ++
           "' is denied by security configuration")) :=
      validateNamespaceScope_named E _ _ _ rfl (by decide) (by decide)
    have hne : L.isEmpty = false := by
      cases L with
      | nil => exact absurd rfl hL
      | cons a as => rfl
    have hE : IsNamespaceAllowed E ⟨lvl, L, []⟩ "default" = L.any (fun a => a == "default") := by
      cases h2 : L.any (fun a => a == "default") <;> simp [IsNamespaceAllowed, hne, h2]
    have hacc : validateAccessLevel ⟨lvl, L, []⟩ "get pod/mypod" "kubectl" = none := by
      rcases hlvl with rfl | rfl | rfl <;> rfl
    have hconn : L.any (fun a => a == "default") = true ↔ "default" ∈ L := by
      rw [List.any_eq_true]
      constructor
      · rintro ⟨a, hmem, hbeq⟩
        rw [beq_iff_eq] at hbeq
        subst hbeq
        exact hmem
      · intro hmem
        exact ⟨"default", hmem, by simp⟩
    rw [ValidateCommand_of_none E _ _ _ hacc, hvns, hE]
    constructor
    · intro heq
      by_cases h2 : L.any (fun a => a == "default") = true
      · exact hconn.mp h2
      · rw [if_neg h2] at heq
        exact absurd heq (by simp)
    · intro hmem
      rw [if_pos (hconn.mpr hmem)]

/-- Witness for C6 at get pod/mypod with allow-list ["default"]. -/
theorem namespace_extraction_priority_witness :
    (["default"] ≠ ([] : List String) ∧
      ("readonly" = "readonly" ∨ "readonly" = "readwrite" ∨ "readonly" = "admin")) ∧
    (ValidateCommand noopRegexEngine ⟨"readonly", ["default"], []⟩ "get pod/mypod" "kubectl" = none ↔
      "default" ∈ ["default"]) :=
  ⟨⟨by decide, Or.inl rfl⟩,
    (namespace_extraction_priority noopRegexEngine "get pod/mypod" "readonly"
      ["default"]).2.2.2.2.2 (by decide) (Or.inl rfl)⟩

/-- The cleaned token list of an allow-list expression: split on commas,
trim whitespace, drop empties. -/
def trimmedTokens (input : String) : List (List Char) :=
  ((splitOnComma input.data).map goTrimSpace).filter (fun t => !t.isEmpty)

/-- The allow-list loop partitions the cleaned tokens: metacharacter tokens
that compile become anchored patterns, the rest become literals. -/
lemma setAllowedAux_eq (E : RegexEngine) (L : List (List Char)) :
    setAllowedAux E L =
      ((((L.map goTrimSpace).filter (fun t => !t.isEmpty)).filter
          (fun t => !(containsMetachar t && E.compiles (anchored t)))).map String.mk,
       (((L.map goTrimSpace).filter (fun t => !t.isEmpty)).filter
          (fun t => containsMetachar t && E.compiles (anchored t))).map anchored) := by
  induction L with
  | nil => rfl
  | cons ns rest ih =>
    cases h1 : (goTrimSpace ns).isEmpty
    · cases h2 : containsMetachar (goTrimSpace ns)
      · simp [setAllowedAux, List.filter_cons, h1, h2, ih]
      · cases h3 : E.compiles (anchored (goTrimSpace ns)) <;>
          simp [setAllowedAux, List.filter_cons, h1, h2, h3, ih]
    · simp [setAllowedAux, List.filter_cons, h1, ih]

/-- The allow-list test as one boolean formula: empty stores, a literal hit,
or a pattern hit. -/
lemma IsNamespaceAllowed_eq (E : RegexEngine) (lvl name : String) (ls ps : List String) :
    IsNamespaceAllowed E ⟨lvl, ls, ps⟩ name =
      ((ls.isEmpty && ps.isEmpty) || ls.any (fun a => a == name) ||
        ps.any (fun pat => E.reMatch pat name)) := by
  cases h1 : (ls.isEmpty && ps.isEmpty) <;> cases h2 : ls.any (fun a => a == name) <;>
    simp [IsNamespaceAllowed, h1, h2]

/-- C7: allow-list parsing. SetAllowedNamespaces splits its input on commas,
trims whitespace, drops empty tokens; a remaining token containing a regex
metacharacter whose anchored form compiles is stored as that anchored
pattern, and a token that fails to compile or has no metacharacter is stored
as a literal. Afterwards IsNamespaceAllowed holds iff both stores are empty,
the name equals a stored literal, or the name matches a stored pattern. -/
theorem allowlist_parsing (E : RegexEngine) (input lvl name : String) :
    SetAllowedNamespaces E input =
      (((trimmedTokens input).filter
          (fun t => !(containsMetachar t && E.compiles (anchored t)))).map String.mk,
       ((trimmedTokens input).filter
          (fun t => containsMetachar t && E.compiles (anchored t))).map anchored) ∧
    IsNamespaceAllowed E
        ⟨lvl, (SetAllowedNamespaces E input).1, (SetAllowedNamespaces E input).2⟩ name =
      (((SetAllowedNamespaces E input).1.isEmpty && (SetAllowedNamespaces E input).2.isEmpty) ||
        (SetAllowedNamespaces E input).1.any (fun a => a == name) ||
        (SetAllowedNamespaces E input).2.any (fun pat => E.reMatch pat name)) := by
  refine ⟨?_, IsNamespaceAllowed_eq E lvl name _ _⟩
  by_cases h : input = ""
  · subst h; rfl
  · simp [SetAllowedNamespaces, trimmedTokens, h, setAllowedAux_eq]

/-- A one-character substring search is membership. -/
lemma containsSub_singleton (c : Char) (l : List Char) :
    containsSub [c] l = true ↔ c ∈ l := by
  induction l with
  | nil => simp [containsSub]
  | cons x xs ih =>
    simp [containsSub, isPrefixList, ih]

/-- strings.Contains with a one-character pattern is membership of that
character. -/
lemma goContains_space (s : String) : goContains s " " = true ↔ ' ' ∈ s.data := by
  exact containsSub_singleton ' ' s.data

/-- C8: command assembly. A fragment containing a space (an embedded
subcommand) is joined with the args only, and the resource never influences
the output; otherwise the fragment, the nonempty resource and the nonempty
args are joined with single spaces in that order. -/
theorem buildCommand_assembly (frag res args : String) :
    (' ' ∈ frag.data →
      buildCommand frag res args = (if args = "" then frag else frag ++ " " ++ args) ∧
      (∀ res2, buildCommand frag res2 args = buildCommand frag res args)) ∧
    (' ' ∉ frag.data →
      buildCommand frag res args =
        (if res = "" then (if args = "" then frag else frag ++ " " ++ args)
         else (if args = "" then frag ++ " " ++ res
           else frag ++ " " ++ (res ++ " " ++ args)))) := by
  constructor
  · intro h
    have hb : goContains frag " " = true := (goContains_space frag).mpr h
    constructor
    · by_cases ha : args = "" <;> simp [buildCommand, hb, ha]
    · intro res2
      simp [buildCommand, hb]
  · intro h
    have hb : goContains frag " " = false := by
      cases hc : goContains frag " "
      · rfl
      · exact absurd ((goContains_space frag).mp hc) h
    by_cases hr : res = "" <;> by_cases ha : args = "" <;>
      simp [buildCommand, hb, hr, ha, goJoin]

/-- Witness for C8 at the embedded-subcommand fragment rollout status. -/
theorem buildCommand_assembly_witness :
    (' ' ∈ ("rollout status" : String).data) ∧
    buildCommand "rollout status" "deployment/myapp" "-n production" =
      (if ("-n production" : String) = "" then "rollout status"
       else "rollout status" ++ " " ++ "-n production") :=
  ⟨by decide,
    ((buildCommand_assembly "rollout status" "deployment/myapp" "-n production").1 (by decide)).1⟩

/-- Counterexample to C1: the structured tool kubectl_workloads with
operation rollout and resource status maps to the fragment "rollout status",
whose category is read-only and which checkAccessLevel accepts at readonly,
yet ValidateCommand on the same command string extracts the operation
"rollout", classifies it read-write, and denies it at ReadOnly — the two
decisions disagree, and the invocation is not allowed at every access
level. -/
theorem structured_raw_consistency_cex :
    mapOperationToCommand "kubectl_workloads" "rollout" "status" = "rollout status" ∧
    determineCommandCategory "rollout status" = "read-only" ∧
    checkAccessLevel "rollout status" "readonly" = none ∧
    extractOperationFromCommand "rollout status" "kubectl" = "rollout" ∧
    ValidateCommand noopRegexEngine ⟨"readonly", [], []⟩ "rollout status" "kubectl" =
      some "Error: Cannot execute write or admin operations in read-only mode" :=
  ⟨rfl, rfl, rfl, rfl, rfl⟩

/-- C1 as amended: the rollout/status invocation maps to fragment
"rollout status" with category read-only, and checkAccessLevel accepts it at
all three access levels; but ValidateCommand classifies the raw command's
operation "rollout" as read-write, so the structured invocation is denied at
ReadOnly by the subsequent validator and succeeds only at ReadWrite and
Admin. -/
theorem structured_raw_consistency_amended :
    mapOperationToCommand "kubectl_workloads" "rollout" "status" = "rollout status" ∧
    determineCommandCategory "rollout status" = "read-only" ∧
    checkAccessLevel "rollout status" "readonly" = none ∧
    checkAccessLevel "rollout status" "readwrite" = none ∧
    checkAccessLevel "rollout status" "admin" = none ∧
    isOperationInList (extractOperationFromCommand "rollout status" "kubectl")
      KubectlReadWriteOperations = true ∧
    executeStructured noopRegexEngine "kubectl_workloads" "rollout" "status" ""
        ⟨"readonly", ⟨"readonly", [], []⟩⟩ =
      Except.error "Error: Cannot execute write or admin operations in read-only mode" ∧
    executeStructured noopRegexEngine "kubectl_workloads" "rollout" "status" ""
        ⟨"readwrite", ⟨"readwrite", [], []⟩⟩ = Except.ok "rollout status" ∧
    executeStructured noopRegexEngine "kubectl_workloads" "rollout" "status" ""
        ⟨"admin", ⟨"admin", [], []⟩⟩ = Except.ok "rollout status" :=
  ⟨rfl, rfl, rfl, rfl, rfl, rfl, rfl, rfl, rfl⟩

/-- Counterexample to C2: validateResourcesOperation accepts "create" (its
writeOps list contains it), so the kubectl_resources create invocation is not
rejected at the combination-validation step; at ReadOnly the rejection that
does occur comes from the later access-level check, whose message does not
name get/describe. -/
theorem resources_create_rejection_cex :
    validateResourcesOperation "create" = none ∧
    executeStructured noopRegexEngine "kubectl_resources" "create" "deployment" ""
        ⟨"readonly", ⟨"readonly", [], []⟩⟩ =
      Except.error "command requires read-write access, but current access level is read-only" :=
  ⟨rfl, rfl⟩

/-- C2 as amended: at ReadOnly, invoking create on kubectl_resources passes
the per-tool combination validation (create is among its write operations,
deferred to the access-level check) and is rejected by checkAccessLevel with
the read-only message; combination validation rejects only operations
outside get, describe, create, delete, apply, patch, replace, with a message
naming those seven. -/
theorem resources_create_rejection_amended :
    validateResourcesOperation "create" = none ∧
    validateResourcesOperation "get" = none ∧
    validateResourcesOperation "describe" = none ∧
    validateResourcesOperation "rollout" =
      some ("invalid operation 'rollout' for resources tool. Valid operations: " ++
        "get, describe, create, delete, apply, patch, replace") ∧
    checkAccessLevel
        (buildCommand (mapOperationToCommand "kubectl_resources" "create" "deployment")
          "deployment" "") "readonly" =
      some "command requires read-write access, but current access level is read-only" ∧
    executeStructured noopRegexEngine "kubectl_resources" "create" "deployment" ""
        ⟨"readonly", ⟨"readonly", [], []⟩⟩ =
      Except.error "command requires read-write access, but current access level is read-only" ∧
    executeStructured noopRegexEngine "kubectl_resources" "create" "deployment" ""
        ⟨"readwrite", ⟨"readwrite", [], []⟩⟩ = Except.ok "create deployment" :=
  ⟨rfl, rfl, rfl, by decide, rfl, rfl, rfl⟩
